import Mathlib

/-!
Shallow embedding of the sponsor-grading pipeline
(`src/sponsor_grader.py`, `src/sheets_handler.py`).

Python string primitives (`split`, `strip`, `upper`, substring tests) are
modelled over `List Char`; only the ASCII behaviour matters for the
transcripts involved, matching `str.upper` on ASCII and `str.strip` on the
ASCII whitespace characters.
-/

/-- Whitespace characters removed by Python `str.strip()` (ASCII subset). -/
def isWS (c : Char) : Bool :=
  c == ' ' || c == '\t' || c == '\n' || c == '\r' || c == Char.ofNat 11 || c == Char.ofNat 12

/-- Python `s.strip()` on a character list. -/
def stripL (l : List Char) : List Char :=
  ((l.dropWhile isWS).reverse.dropWhile isWS).reverse

/-- Python `s.upper()` (ASCII). -/
def upperL (l : List Char) : List Char :=
  l.map Char.toUpper

/-- Boolean list-prefix test, used to model Python `str.startswith`. -/
def prefL : List Char → List Char → Bool
  | [], _ => true
  | _ :: _, [] => false
  | p :: ps, c :: cs => p == c && prefL ps cs

/-- Python `pat in s` (substring containment) on character lists. -/
def hasSubL (pat : List Char) : List Char → Bool
  | [] => prefL pat []
  | c :: cs => prefL pat (c :: cs) || hasSubL pat cs

/-- Characters after the first colon, if any colon occurs. -/
def afterColonOpt : List Char → Option (List Char)
  | [] => none
  | c :: cs => if c == ':' then some cs else afterColonOpt cs

/-- Python `s.split(chr(58), 1)[-1]`: text after the first colon, or the whole
string when no colon occurs. -/
def afterFirstColonL (l : List Char) : List Char :=
  (afterColonOpt l).getD l

/-- Python `s.split(chr(58))[-1]`: text after the last colon, or the whole
string when no colon occurs. -/
def afterLastColonL (l : List Char) : List Char :=
  (l.reverse.takeWhile (fun c => !(c == ':'))).reverse

/-- Python `s.split(chr(10))` on a character list. -/
def splitLinesL : List Char → List (List Char)
  | [] => [[]]
  | c :: cs =>
    match splitLinesL cs with
    | [] => [[c]]
    | l :: ls => if c == '\n' then [] :: l :: ls else (c :: l) :: ls

/-- String wrapper for `stripL`. -/
def stripS (s : String) : String := ⟨stripL s.data⟩

/-- String wrapper for `upperL`. -/
def upperS (s : String) : String := ⟨upperL s.data⟩

/-- Python `pat in s` at the string level. -/
def hasSub (s pat : String) : Bool := hasSubL pat.data s.data

/-- String wrapper for `afterFirstColonL`. -/
def afterFirstColonS (s : String) : String := ⟨afterFirstColonL s.data⟩

/-- String wrapper for `afterLastColonL`. -/
def afterLastColonS (s : String) : String := ⟨afterLastColonL s.data⟩

/-- Python `research_output.split(chr(10))` at the string level. -/
def splitLines (s : String) : List String :=
  (splitLinesL s.data).map String.mk

/-- Python `line.upper().startswith((S, R, S))` from
`sponsor_grader.py:132`: prefix test on the uppercased, unstripped line. -/
def startsWithAnyUpper (line : String) : Bool :=
  prefL "SPONSOR".data (upperL line.data) || prefL "RESEARCH".data (upperL line.data)
    || prefL "SUMMARY".data (upperL line.data)

/-- The decision-marker branch of `_extract_tier_and_reasoning`
(`sponsor_grader.py:119-126`): when the uppercased line contains
`SPONSOR DECISION:`, reclassify from the text after the last colon;
otherwise keep the current category. -/
def classify_decision (line : String) (cat : String) : String :=
  if hasSub (upperS line) "SPONSOR DECISION:" then
    let d := upperS (stripS (afterLastColonS line))
    if hasSub d "FLAGSHIP" then "Flagship"
    else if hasSub d "ELIGIBLE" then "Eligible"
    else "Rejected"
  else cat

/-- The reasoning continuation loop of `_extract_tier_and_reasoning`
(`sponsor_grader.py:131-134`): append stripped lines until a blank line, a
line starting (uppercased) with SPONSOR/RESEARCH/SUMMARY, or the end. -/
def reasoning_cont : List String → String → String
  | [], acc => acc
  | l :: ls, acc =>
    if stripS l = "" then acc
    else if startsWithAnyUpper l then acc
    else reasoning_cont ls (acc ++ " " ++ stripS l)

/-- The main scan of `_extract_tier_and_reasoning`
(`sponsor_grader.py:118-135`): one top-to-bottom pass that threads the
category and `break`s as soon as a reasoning block is consumed. -/
def extract_loop : List String → String → String × String
  | [], cat => (cat, "Unable to parse sponsor decision from research output")
  | line :: rest, cat =>
    let cat2 := classify_decision line cat
    if hasSub (upperS line) "REASONING:" then
      (cat2, reasoning_cont rest (stripS (afterFirstColonS line)))
    else extract_loop rest cat2

/-- `SponsorGrader._extract_tier_and_reasoning` (`sponsor_grader.py:110-141`):
maps a raw research transcript to a (category, reasoning) pair. -/
def extract_tier_and_reasoning (research_output : String) : String × String :=
  extract_loop (splitLines research_output) "Rejected"

example :
    extract_tier_and_reasoning
      "RESEARCH SUMMARY:\nLooks fine.\n\nSPONSOR DECISION: Eligible\nREASONING: Stable finances and no controversies found.\n"
      = ("Eligible", "Stable finances and no controversies found.") := by decide

example :
    extract_tier_and_reasoning "SPONSOR DECISION: Flagship\nREASONING: great"
      = ("Flagship", "great") := by decide

example :
    extract_tier_and_reasoning "REASONING: ok\nSPONSOR DECISION: Flagship"
      = ("Rejected", "ok") := by decide

/-!
Sheets model (`src/sheets_handler.py`). A record is the key-value mapping a
`worksheet.get_all_records()` row yields; the sheet body is the list of its
data rows (sheet row 2 onwards, row 1 being the header).
-/

/-- One spreadsheet data row as the key-value mapping gspread returns. -/
abbrev Record := List (String × String)

/-- Python `record.get(k, str())`: value of key `k`, or empty when absent. -/
def getField (r : Record) (k : String) : String :=
  match r.find? (fun p => p.1 == k) with
  | some p => p.2
  | none => ""

/-- Python `a or b` on strings: `b` when `a` is empty (falsy), else `a`. -/
def pyOrStr (a b : String) : String :=
  if a = "" then b else a

/-- The validity filter of `SheetsHandler.get_all_records`
(`sheets_handler.py:85-92`): both the stripped Timestamp and the stripped
company name (from either header spelling) must be non-empty. -/
def valid_record (r : Record) : Bool :=
  !(stripS (getField r "Timestamp") == "")
    && !(stripS (pyOrStr (getField r "Company Name") (getField r "Company Name ")) == "")

/-- `SheetsHandler.get_all_records` (`sheets_handler.py:80-98`): all data
rows with the invalid ones filtered out. -/
def get_all_records (rows : List Record) : List Record :=
  rows.filter valid_record

/-- The unprocessed test of `SheetsHandler.get_unprocessed_records`
(`sheets_handler.py:107-111`): both stripped fields are empty. -/
def is_unprocessed (r : Record) : Bool :=
  stripS (getField r "Research Notes") == "" && stripS (getField r "Decision") == ""

/-- The enumeration loop of `SheetsHandler.get_unprocessed_records`
(`sheets_handler.py:106-113`): `i` is the running index into the filtered
list and the attached row locator is `i + 2`. -/
def unprocFrom : Nat → List Record → List (Nat × Record)
  | _, [] => []
  | i, r :: rs =>
    if is_unprocessed r then (i + 2, r) :: unprocFrom (i + 1) rs
    else unprocFrom (i + 1) rs

/-- `SheetsHandler.get_unprocessed_records` (`sheets_handler.py:100-120`). -/
def get_unprocessed_records (rows : List Record) : List (Nat × Record) :=
  unprocFrom 0 (get_all_records rows)

/-- `SheetsHandler.add_columns_if_missing` (`sheets_handler.py:142-159`):
resulting header row after appending each required column not yet present. -/
def add_columns_if_missing (headers : List String) (required : List String) : List String :=
  required.foldl (fun hs col => if col ∈ hs then hs else hs ++ [col]) headers

/-- `SheetsHandler.setup_required_columns` (`sheets_handler.py:180-186`). -/
def setup_required_columns (headers : List String) : List String :=
  add_columns_if_missing headers ["Research Notes", "Decision"]

/-!
Pipeline model (`src/sponsor_grader.py`). The research client is an oracle
`Record → Except String String`: `Except.ok transcript` for a completed
call, `Except.error e` when the call raises with message `e`. The run is
modelled by the trace of Spreadsheet Gateway operations it performs.
-/

/-- `SponsorGrader.research_and_grade_company` (`sponsor_grader.py:15-55`)
as a function of the research call's outcome: on success, extract the tier
and format the decision; on an exception, the synthetic failure pair. -/
def research_and_grade_company (outcome : Except String String) : String × String :=
  match outcome with
  | Except.ok transcript =>
    let p := extract_tier_and_reasoning transcript
    (transcript, p.1 ++ " Sponsor: " ++ p.2)
  | Except.error e =>
    ("Research failed: " ++ e,
      "Rejected Sponsor: Unable to complete research due to technical error")

/-- A Spreadsheet Gateway operation issued by the pipeline. -/
inductive GatewayOp where
  | fetchUnprocessed : GatewayOp
  | ensureColumns : List String → GatewayOp
  | updateRecord : Nat → List (String × String) → GatewayOp
deriving DecidableEq

/-- Python `if max_records:` followed by the slice
`unprocessed_records[:max_records]` (`sponsor_grader.py:157-158`): `None`
and `0` are falsy, so only a non-zero cap slices the list. -/
def applyCap (m : Option Nat) (l : List (Nat × Record)) : List (Nat × Record) :=
  match m with
  | none => l
  | some n => if n = 0 then l else l.take n

/-- The update issued for one record (`sponsor_grader.py:167-176`). -/
def updateOpOf (research : Record → Except String String) (p : Nat × Record) : GatewayOp :=
  let res := research_and_grade_company (research p.2)
  GatewayOp.updateRecord p.1 [("Research Notes", res.1), ("Decision", res.2)]

/-- `SponsorGrader.process_unprocessed_records` (`sponsor_grader.py:143-186`)
as its trace of gateway operations: fetch the unprocessed records, return
early when none, otherwise cap the list and update every capped record in
order. The run performs no ensure-columns operation. -/
def process_unprocessed_records (rows : List Record)
    (research : Record → Except String String) (max_records : Option Nat) :
    List GatewayOp :=
  let unprocessed := get_unprocessed_records rows
  if unprocessed.isEmpty then [GatewayOp.fetchUnprocessed]
  else GatewayOp.fetchUnprocessed :: (applyCap max_records unprocessed).map (updateOpOf research)

/-- Recognizer for ensure-columns operations in a trace. -/
def isEnsureOp : GatewayOp → Bool
  | GatewayOp.ensureColumns _ => true
  | _ => false

/-- Recognizer for record-update operations in a trace. -/
def isUpdateOp : GatewayOp → Bool
  | GatewayOp.updateRecord _ _ => true
  | _ => false

/-- Number of ensure-columns operations in a trace. -/
def countEnsure (t : List GatewayOp) : Nat :=
  (t.filter isEnsureOp).length

/-- Number of record-update operations in a trace. -/
def countUpdates (t : List GatewayOp) : Nat :=
  (t.filter isUpdateOp).length

example :
    get_unprocessed_records
      [[("Timestamp", ""), ("Company Name", "Bad")],
       [("Timestamp", "2024"), ("Company Name", "Acme")]]
      = [(2, [("Timestamp", "2024"), ("Company Name", "Acme")])] := by decide

/-!
Helper lemmas about the extractor scan.
-/

/-- A line without the decision marker leaves the category unchanged. -/
theorem classify_decision_no_marker (line cat : String)
    (h : hasSub (upperS line) "SPONSOR DECISION:" = false) :
    classify_decision line cat = cat := by
  simp [classify_decision, h]

/-- A decision line whose text after the last colon contains FLAGSHIP sets
the category to Flagship. -/
theorem classify_decision_flagship (line cat : String)
    (hmark : hasSub (upperS line) "SPONSOR DECISION:" = true)
    (hflag : hasSub (upperS (stripS (afterLastColonS line))) "FLAGSHIP" = true) :
    classify_decision line cat = "Flagship" := by
  simp [classify_decision, hmark, hflag]

/-- When no line contains the decision marker, the scan returns the
category it was started with. -/
theorem extract_loop_no_decision (ls : List String) (cat : String)
    (h : ∀ l ∈ ls, hasSub (upperS l) "SPONSOR DECISION:" = false) :
    (extract_loop ls cat).1 = cat := by
  induction ls generalizing cat with
  | nil => rfl
  | cons l ls ih =>
    have hl := h l (List.mem_cons_self l ls)
    have hcl : classify_decision l cat = cat := classify_decision_no_marker l cat hl
    cases hr : hasSub (upperS l) "REASONING:" with
    | true => simp [extract_loop, hcl, hr]
    | false =>
      simp only [extract_loop, hcl, hr, Bool.false_eq_true, if_false]
      exact ih cat (fun x hx => h x (List.mem_cons_of_mem l hx))

/-- Once the category is Flagship, a suffix whose decision-marker lines all
classify FLAGSHIP keeps it Flagship. -/
theorem extract_loop_flagship_preserved (ls : List String)
    (h : ∀ l ∈ ls, hasSub (upperS l) "SPONSOR DECISION:" = true →
      hasSub (upperS (stripS (afterLastColonS l))) "FLAGSHIP" = true) :
    (extract_loop ls "Flagship").1 = "Flagship" := by
  induction ls with
  | nil => rfl
  | cons l ls ih =>
    have hcl : classify_decision l "Flagship" = "Flagship" := by
      cases hm : hasSub (upperS l) "SPONSOR DECISION:" with
      | true =>
        exact classify_decision_flagship l "Flagship" hm
          (h l (List.mem_cons_self l ls) hm)
      | false => exact classify_decision_no_marker l "Flagship" hm
    cases hr : hasSub (upperS l) "REASONING:" with
    | true => simp [extract_loop, hcl, hr]
    | false =>
      simp only [extract_loop, hcl, hr, Bool.false_eq_true, if_false]
      exact ih (fun x hx => h x (List.mem_cons_of_mem l hx))

/-- Scan lemma for the amended C1: a FLAGSHIP decision line at index `d`
wins when no reasoning line precedes it and every later decision-marker
line also classifies FLAGSHIP (no later conflicting marker). -/
theorem extract_loop_flagship (ls : List String) (cat : String) (d : Nat)
    (hd : d < ls.length)
    (hmark : hasSub (upperS (ls.getD d "")) "SPONSOR DECISION:" = true)
    (hflag : hasSub (upperS (stripS (afterLastColonS (ls.getD d "")))) "FLAGSHIP" = true)
    (hbefore : ∀ k, k < ls.length → k < d →
      hasSub (upperS (ls.getD k "")) "REASONING:" = false)
    (hafter : ∀ k, k < ls.length → d < k →
      hasSub (upperS (ls.getD k "")) "SPONSOR DECISION:" = true →
      hasSub (upperS (stripS (afterLastColonS (ls.getD k "")))) "FLAGSHIP" = true) :
    (extract_loop ls cat).1 = "Flagship" := by
  induction ls generalizing cat d with
  | nil => exact absurd hd (Nat.not_lt_zero d)
  | cons l ls ih =>
    cases d with
    | zero =>
      have hcl : classify_decision l cat = "Flagship" :=
        classify_decision_flagship l cat hmark hflag
      cases hr : hasSub (upperS l) "REASONING:" with
      | true => simp [extract_loop, hcl, hr]
      | false =>
        simp only [extract_loop, hcl, hr, Bool.false_eq_true, if_false]
        apply extract_loop_flagship_preserved
        intro x hx
        obtain ⟨⟨k, hk⟩, rfl⟩ := List.get_of_mem hx
        have hk1 : k + 1 < (l :: ls).length := Nat.succ_lt_succ hk
        have := hafter (k + 1) hk1 (Nat.succ_pos k)
        rw [List.getD_cons_succ, List.getD_eq_getElem ls "" hk] at this
        exact this
    | succ d' =>
      have h0 : hasSub (upperS l) "REASONING:" = false :=
        hbefore 0 (Nat.succ_pos _) (Nat.succ_pos d')
      simp only [extract_loop, h0, Bool.false_eq_true, if_false]
      exact ih (classify_decision l cat) d' (Nat.lt_of_succ_lt_succ hd) hmark hflag
        (fun k hk hkd => hbefore (k + 1) (Nat.succ_lt_succ hk) (Nat.succ_lt_succ hkd))
        (fun k hk hkd => hafter (k + 1) (Nat.succ_lt_succ hk) (Nat.succ_lt_succ hkd))

/-- The continuation loop stops immediately on a blank first line. -/
theorem reasoning_cont_blank_head (l : String) (ls : List String) (acc : String)
    (h : stripS l = "") : reasoning_cont (l :: ls) acc = acc := by
  simp [reasoning_cont, h]

/-- Scan lemma for C8: when the first reasoning line is at index `i` and
line `i + 1` is blank, the reasoning is exactly the stripped text after the
first colon of line `i`. -/
theorem extract_loop_reasoning_blank (ls : List String) (cat : String) (i : Nat)
    (hi : i < ls.length)
    (hmark : hasSub (upperS (ls.getD i "")) "REASONING:" = true)
    (hbefore : ∀ k, k < ls.length → k < i →
      hasSub (upperS (ls.getD k "")) "REASONING:" = false)
    (hnext : i + 1 < ls.length)
    (hblank : stripS (ls.getD (i + 1) "") = "") :
    (extract_loop ls cat).2 = stripS (afterFirstColonS (ls.getD i "")) := by
  induction ls generalizing cat i with
  | nil => exact absurd hi (Nat.not_lt_zero i)
  | cons l ls ih =>
    cases i with
    | zero =>
      cases ls with
      | nil => exact absurd hnext (by simp)
      | cons l2 t =>
        have hb : stripS l2 = "" := hblank
        simp only [List.getD_cons_zero] at hmark ⊢
        simp [extract_loop, hmark, reasoning_cont_blank_head l2 t _ hb]
    | succ i' =>
      have h0 : hasSub (upperS l) "REASONING:" = false :=
        hbefore 0 (Nat.succ_pos _) (Nat.succ_pos i')
      simp only [extract_loop, h0, Bool.false_eq_true, if_false, List.getD_cons_succ]
      exact ih (classify_decision l cat) i' (Nat.lt_of_succ_lt_succ hi) hmark
        (fun k hk hki => hbefore (k + 1) (Nat.succ_lt_succ hk) (Nat.succ_lt_succ hki))
        (Nat.lt_of_succ_lt_succ hnext) hblank

/-- C2: a transcript with no line containing the case-insensitive marker
`SPONSOR DECISION:` is extracted with category Rejected; in particular the
extractor never assigns Flagship or Eligible without a decision marker. -/
theorem extract_no_marker_rejected (t : String)
    (h : ∀ l ∈ splitLines t, hasSub (upperS l) "SPONSOR DECISION:" = false) :
    (extract_tier_and_reasoning t).1 = "Rejected" :=
  extract_loop_no_decision (splitLines t) "Rejected" h

/-- Witness for C2 at the transcript with lines `hello` and `world`. -/
theorem extract_no_marker_rejected_witness :
    (∀ l ∈ splitLines "hello\nworld", hasSub (upperS l) "SPONSOR DECISION:" = false)
      ∧ (extract_tier_and_reasoning "hello\nworld").1 = "Rejected" :=
  ⟨by decide, extract_no_marker_rejected "hello\nworld" (by decide)⟩

/-- Counterexample to C1 as stated: the transcript `REASONING: ok` then
`SPONSOR DECISION: Flagship` has a decision line whose text after the last
colon contains FLAGSHIP and no later conflicting marker, yet extraction
returns Rejected, because the scan breaks at the earlier reasoning line. -/
theorem extract_flagship_regardless_cex :
    hasSub (upperS ((splitLines "REASONING: ok\nSPONSOR DECISION: Flagship").getD 1 ""))
        "SPONSOR DECISION:" = true
      ∧ hasSub (upperS (stripS (afterLastColonS
          ((splitLines "REASONING: ok\nSPONSOR DECISION: Flagship").getD 1 ""))))
          "FLAGSHIP" = true
      ∧ (splitLines "REASONING: ok\nSPONSOR DECISION: Flagship").length = 2
      ∧ extract_tier_and_reasoning "REASONING: ok\nSPONSOR DECISION: Flagship"
          = ("Rejected", "ok") := by
  decide

/-- C1 (amended): a transcript whose line `d` contains the case-insensitive
marker `SPONSOR DECISION:` with FLAGSHIP after the last colon is extracted
as Flagship, provided no later conflicting decision marker occurs — every
later line containing the decision marker also classifies FLAGSHIP — and no
line containing `REASONING:` occurs before line `d`: the scan breaks once a
reasoning block is consumed, so a decision line strictly after the first
reasoning line would be missed. -/
theorem extract_flagship_before_reasoning (t : String) (d : Nat)
    (hd : d < (splitLines t).length)
    (hmark : hasSub (upperS ((splitLines t).getD d "")) "SPONSOR DECISION:" = true)
    (hflag : hasSub (upperS (stripS (afterLastColonS ((splitLines t).getD d ""))))
      "FLAGSHIP" = true)
    (hbefore : ∀ k, k < (splitLines t).length → k < d →
      hasSub (upperS ((splitLines t).getD k "")) "REASONING:" = false)
    (hafter : ∀ k, k < (splitLines t).length → d < k →
      hasSub (upperS ((splitLines t).getD k "")) "SPONSOR DECISION:" = true →
      hasSub (upperS (stripS (afterLastColonS ((splitLines t).getD k ""))))
        "FLAGSHIP" = true) :
    (extract_tier_and_reasoning t).1 = "Flagship" :=
  extract_loop_flagship (splitLines t) "Rejected" d hd hmark hflag hbefore hafter

/-- Witness for the amended C1 at a transcript whose decision line precedes
its reasoning line and whose later decision marker agrees (a non-conflicting
later marker, which the amended claim still covers). -/
theorem extract_flagship_before_reasoning_witness :
    0 < (splitLines
        "SPONSOR DECISION: Flagship\nREASONING: ok\nSPONSOR DECISION: Flagship").length
      ∧ (extract_tier_and_reasoning
          "SPONSOR DECISION: Flagship\nREASONING: ok\nSPONSOR DECISION: Flagship").1
          = "Flagship" :=
  ⟨by decide,
    extract_flagship_before_reasoning
      "SPONSOR DECISION: Flagship\nREASONING: ok\nSPONSOR DECISION: Flagship" 0
      (by decide) (by decide) (by decide) (by decide) (by decide)⟩

/-- C8: when the first line containing the case-insensitive marker
`REASONING:` is immediately followed by a blank line, the extracted
reasoning is exactly the (stripped) text after the first colon of that one
line, with no continuation lines appended. -/
theorem extract_reasoning_blank_next (t : String) (i : Nat)
    (hi : i < (splitLines t).length)
    (hmark : hasSub (upperS ((splitLines t).getD i "")) "REASONING:" = true)
    (hbefore : ∀ k, k < (splitLines t).length → k < i →
      hasSub (upperS ((splitLines t).getD k "")) "REASONING:" = false)
    (hnext : i + 1 < (splitLines t).length)
    (hblank : stripS ((splitLines t).getD (i + 1) "") = "") :
    (extract_tier_and_reasoning t).2 = stripS (afterFirstColonS ((splitLines t).getD i "")) :=
  extract_loop_reasoning_blank (splitLines t) "Rejected" i hi hmark hbefore hnext hblank

/-- Witness for C8 at a transcript whose reasoning line is followed by a
blank line and then a continuation candidate that must not be appended. -/
theorem extract_reasoning_blank_next_witness :
    0 < (splitLines "REASONING: good stuff\n\nnot appended").length
      ∧ (extract_tier_and_reasoning "REASONING: good stuff\n\nnot appended").2
          = "good stuff" :=
  ⟨by decide, by
    have h := extract_reasoning_blank_next "REASONING: good stuff\n\nnot appended" 0
      (by decide) (by decide) (by decide) (by decide) (by decide)
    simpa using h⟩

/-!
Helper lemmas about the sheets model and the pipeline trace.
-/

/-- Every record enumerated from index `i` carries a locator of at least
`i + 2`. -/
theorem unprocFrom_ge (i : Nat) (rs : List Record) :
    ∀ p ∈ unprocFrom i rs, i + 2 ≤ p.1 := by
  induction rs generalizing i with
  | nil => intro p hp; simp [unprocFrom] at hp
  | cons r rs ih =>
    intro p hp
    by_cases h : is_unprocessed r = true
    · simp only [unprocFrom, h, if_true] at hp
      rcases List.mem_cons.mp hp with rfl | hp'
      · exact Nat.le_refl _
      · have := ih (i + 1) p hp'
        omega
    · simp only [unprocFrom, h, if_false] at hp
      have := ih (i + 1) p hp
      omega

/-- The locators attached by the enumeration loop are strictly increasing. -/
theorem unprocFrom_pairwise (i : Nat) (rs : List Record) :
    (unprocFrom i rs).Pairwise (fun a b => a.1 < b.1) := by
  induction rs generalizing i with
  | nil => simp [unprocFrom]
  | cons r rs ih =>
    by_cases h : is_unprocessed r = true
    · simp only [unprocFrom, h, if_true]
      refine List.Pairwise.cons ?_ (ih (i + 1))
      intro b hb
      have := unprocFrom_ge (i + 1) rs b hb
      omega
    · simp only [unprocFrom, h, if_false]
      exact ih (i + 1)

/-- Row locators of the unprocessed records are strictly increasing. -/
theorem get_unprocessed_pairwise (rows : List Record) :
    (get_unprocessed_records rows).Pairwise (fun a b => a.1 < b.1) :=
  unprocFrom_pairwise 0 (get_all_records rows)

/-- Every record kept by the enumeration loop passes the unprocessed test. -/
theorem unprocFrom_is_unprocessed (i : Nat) (rs : List Record) :
    ∀ p ∈ unprocFrom i rs, is_unprocessed p.2 = true := by
  induction rs generalizing i with
  | nil => intro p hp; simp [unprocFrom] at hp
  | cons r rs ih =>
    intro p hp
    by_cases h : is_unprocessed r = true
    · simp only [unprocFrom, h, if_true] at hp
      rcases List.mem_cons.mp hp with rfl | hp'
      · exact h
      · exact ih (i + 1) p hp'
    · simp only [unprocFrom, h, if_false] at hp
      exact ih (i + 1) p hp

/-- The per-record update operation is always an update. -/
theorem isUpdateOp_updateOpOf (research : Record → Except String String)
    (p : Nat × Record) : isUpdateOp (updateOpOf research p) = true := rfl

/-- The per-record update operation is never an ensure-columns operation. -/
theorem isEnsureOp_updateOpOf (research : Record → Except String String)
    (p : Nat × Record) : isEnsureOp (updateOpOf research p) = false := rfl

/-- A trace of a fetch followed by per-record updates has exactly one
update per record. -/
theorem countUpdates_trace (research : Record → Except String String)
    (l : List (Nat × Record)) :
    countUpdates (GatewayOp.fetchUnprocessed :: l.map (updateOpOf research)) = l.length := by
  have : ∀ m : List (Nat × Record),
      (m.map (updateOpOf research)).filter isUpdateOp = m.map (updateOpOf research) := by
    intro m
    induction m with
    | nil => rfl
    | cons p m ih => simp [List.filter_cons, isUpdateOp_updateOpOf, ih]
  simp [countUpdates, List.filter_cons, isUpdateOp, this]

/-- Capping can only shrink the unprocessed list; in particular a member of
the capped list is a member of the full list. -/
theorem mem_of_mem_applyCap (m : Option Nat) (l : List (Nat × Record))
    (p : Nat × Record) (hp : p ∈ applyCap m l) : p ∈ l := by
  cases m with
  | none => exact hp
  | some n =>
    by_cases h : n = 0
    · simpa [applyCap, h] using hp
    · simp only [applyCap, h, if_false] at hp
      exact List.mem_of_mem_take hp

/-- A nonempty capped list forces a nonempty unprocessed list. -/
theorem isEmpty_false_of_mem_applyCap (m : Option Nat) (l : List (Nat × Record))
    (p : Nat × Record) (hp : p ∈ applyCap m l) : l.isEmpty = false := by
  cases l with
  | nil =>
    exact absurd (mem_of_mem_applyCap m [] p hp) (List.not_mem_nil p)
  | cons q l => rfl

/-- C3: a record whose research call raises with message `e` is written
with research notes `Research failed: ` followed by the error description
and with the exact decision string
`Rejected Sponsor: Unable to complete research due to technical error`, and
the batch still issues one update per capped record, so a single failure
never aborts the batch. -/
theorem research_failure_written (rows : List Record)
    (research : Record → Except String String) (m : Option Nat)
    (row : Nat) (r : Record) (e : String)
    (hmem : (row, r) ∈ applyCap m (get_unprocessed_records rows))
    (herr : research r = Except.error e) :
    GatewayOp.updateRecord row
        [("Research Notes", "Research failed: " ++ e),
         ("Decision", "Rejected Sponsor: Unable to complete research due to technical error")]
      ∈ process_unprocessed_records rows research m
    ∧ countUpdates (process_unprocessed_records rows research m)
        = (applyCap m (get_unprocessed_records rows)).length := by
  have hne : (get_unprocessed_records rows).isEmpty = false :=
    isEmpty_false_of_mem_applyCap m _ _ hmem
  have htrace : process_unprocessed_records rows research m
      = GatewayOp.fetchUnprocessed
          :: (applyCap m (get_unprocessed_records rows)).map (updateOpOf research) := by
    simp [process_unprocessed_records, hne]
  constructor
  · rw [htrace]
    apply List.mem_cons_of_mem
    have hop : updateOpOf research (row, r)
        = GatewayOp.updateRecord row
            [("Research Notes", "Research failed: " ++ e),
             ("Decision", "Rejected Sponsor: Unable to complete research due to technical error")] := by
      simp [updateOpOf, research_and_grade_company, herr]
    exact hop ▸ List.mem_map_of_mem (updateOpOf research) hmem
  · rw [htrace]
    exact countUpdates_trace research _

/-- Research oracle that always raises with message `timeout`, modelling a
research call that fails. -/
def failResearch : Record → Except String String :=
  fun _ => Except.error "timeout"

/-- Witness for C3: a one-record sheet whose research call raises. -/
theorem research_failure_written_witness :
    ((2 : Nat), ([("Timestamp", "t"), ("Company Name", "Acme")] : Record))
        ∈ applyCap none (get_unprocessed_records [[("Timestamp", "t"), ("Company Name", "Acme")]])
      ∧ failResearch [("Timestamp", "t"), ("Company Name", "Acme")] = Except.error "timeout"
      ∧ GatewayOp.updateRecord 2
          [("Research Notes", "Research failed: timeout"),
           ("Decision", "Rejected Sponsor: Unable to complete research due to technical error")]
        ∈ process_unprocessed_records [[("Timestamp", "t"), ("Company Name", "Acme")]]
            failResearch none :=
  ⟨by decide, rfl,
    (research_failure_written [[("Timestamp", "t"), ("Company Name", "Acme")]]
      failResearch none 2 [("Timestamp", "t"), ("Company Name", "Acme")] "timeout"
      (by decide) rfl).1⟩

/-- C4 (failing evaluation): with an invalid first data row (empty
Timestamp, so it is filtered out) followed by a valid unprocessed row, the
returned record is the sheet's second data row — sheet row 3 — yet it
carries row locator 2, because the locator is computed from the index in
the filtered list. An update through this locator would write into sheet
row 2, the filtered-out row. -/
theorem row_locator_skew_eval :
    get_unprocessed_records
        [[("Timestamp", ""), ("Company Name", "Bad")],
         [("Timestamp", "2024"), ("Company Name", "Acme")]]
      = [(2, [("Timestamp", "2024"), ("Company Name", "Acme")])]
    ∧ [[("Timestamp", ""), ("Company Name", "Bad")],
       [("Timestamp", "2024"), ("Company Name", "Acme")]].getD 1 []
      = [("Timestamp", "2024"), ("Company Name", "Acme")] := by
  decide

/-- Counterexample to C5 as stated: on a sheet with one unprocessed record,
the run issues no ensure-columns operation at all, and its first gateway
operation is the fetch of unprocessed records. -/
theorem run_ensure_columns_cex :
    countEnsure (process_unprocessed_records
        [[("Timestamp", "t"), ("Company Name", "A")]] failResearch none) = 0
    ∧ (process_unprocessed_records
        [[("Timestamp", "t"), ("Company Name", "A")]] failResearch none).head?
      = some GatewayOp.fetchUnprocessed
    ∧ countUpdates (process_unprocessed_records
        [[("Timestamp", "t"), ("Company Name", "A")]] failResearch none) = 1 := by
  decide

/-- C5 (amended): the run never ensures columns — `setup_required_columns`
is only invoked by the connection test helper, not by
`process_unprocessed_records`, whose first gateway operation is always the
fetch of unprocessed records. -/
theorem run_never_ensures_columns (rows : List Record)
    (research : Record → Except String String) (m : Option Nat) :
    countEnsure (process_unprocessed_records rows research m) = 0
    ∧ (process_unprocessed_records rows research m).head?
      = some GatewayOp.fetchUnprocessed := by
  by_cases h : (get_unprocessed_records rows).isEmpty
  · constructor
    · simp [process_unprocessed_records, h, countEnsure, isEnsureOp]
    · simp [process_unprocessed_records, h]
  · have hfil : ∀ l : List (Nat × Record),
        (l.map (updateOpOf research)).filter isEnsureOp = [] := by
      intro l
      induction l with
      | nil => rfl
      | cons p l ih => simp [List.filter_cons, isEnsureOp_updateOpOf, ih]
    constructor
    · simp [process_unprocessed_records, h, countEnsure, List.filter_cons, isEnsureOp, hfil]
    · simp [process_unprocessed_records, h]

/-- C6: with a positive cap `n` smaller than the number of unprocessed
records, the run's trace is the fetch followed by exactly one update for
each of the first `n` unprocessed records in sheet order, and no operation
of the trace updates the row of any remaining unprocessed record. -/
theorem process_cap_first_n (rows : List Record)
    (research : Record → Except String String) (n : Nat)
    (hn : 0 < n) (hm : n < (get_unprocessed_records rows).length) :
    process_unprocessed_records rows research (some n)
      = GatewayOp.fetchUnprocessed
          :: ((get_unprocessed_records rows).take n).map (updateOpOf research)
    ∧ ∀ p ∈ (get_unprocessed_records rows).drop n, ∀ fields,
        GatewayOp.updateRecord p.1 fields ∉ process_unprocessed_records rows research (some n) := by
  have hne : (get_unprocessed_records rows).isEmpty = false := by
    cases hu : get_unprocessed_records rows with
    | nil => rw [hu] at hm; simp at hm
    | cons q l => rfl
  have hn0 : ¬ n = 0 := Nat.pos_iff_ne_zero.mp hn
  have htrace : process_unprocessed_records rows research (some n)
      = GatewayOp.fetchUnprocessed
          :: ((get_unprocessed_records rows).take n).map (updateOpOf research) := by
    simp [process_unprocessed_records, hne, applyCap, hn0]
  refine ⟨htrace, ?_⟩
  intro p hp fields hmem
  rw [htrace] at hmem
  rcases List.mem_cons.mp hmem with heq | hmem'
  · exact GatewayOp.noConfusion heq
  · obtain ⟨q, hq, heq⟩ := List.mem_map.mp hmem'
    have hq1 : q.1 = p.1 := by
      simp only [updateOpOf] at heq
      injection heq with h1 h2
    have hlt : q.1 < p.1 :=
      (get_unprocessed_pairwise rows).rel_of_mem_take_of_mem_drop hq hp
    omega

/-- Research oracle that always completes with a fixed eligible verdict. -/
def okResearch : Record → Except String String :=
  fun _ => Except.ok "SPONSOR DECISION: Eligible\nREASONING: fine"

/-- Witness for C6 on a sheet with three unprocessed records and a cap of
two. -/
theorem process_cap_first_n_witness :
    0 < 2
    ∧ 2 < (get_unprocessed_records
        [[("Timestamp", "t1"), ("Company Name", "A")],
         [("Timestamp", "t2"), ("Company Name", "B")],
         [("Timestamp", "t3"), ("Company Name", "C")]]).length
    ∧ (process_unprocessed_records
          [[("Timestamp", "t1"), ("Company Name", "A")],
           [("Timestamp", "t2"), ("Company Name", "B")],
           [("Timestamp", "t3"), ("Company Name", "C")]] okResearch (some 2)
        = GatewayOp.fetchUnprocessed
            :: ((get_unprocessed_records
                [[("Timestamp", "t1"), ("Company Name", "A")],
                 [("Timestamp", "t2"), ("Company Name", "B")],
                 [("Timestamp", "t3"), ("Company Name", "C")]]).take 2).map (updateOpOf okResearch)
      ∧ ∀ p ∈ (get_unprocessed_records
            [[("Timestamp", "t1"), ("Company Name", "A")],
             [("Timestamp", "t2"), ("Company Name", "B")],
             [("Timestamp", "t3"), ("Company Name", "C")]]).drop 2, ∀ fields,
          GatewayOp.updateRecord p.1 fields
            ∉ process_unprocessed_records
                [[("Timestamp", "t1"), ("Company Name", "A")],
                 [("Timestamp", "t2"), ("Company Name", "B")],
                 [("Timestamp", "t3"), ("Company Name", "C")]] okResearch (some 2)) :=
  ⟨by decide, by decide,
    process_cap_first_n
      [[("Timestamp", "t1"), ("Company Name", "A")],
       [("Timestamp", "t2"), ("Company Name", "B")],
       [("Timestamp", "t3"), ("Company Name", "C")]] okResearch 2
      (by decide) (by decide)⟩

/-- Counterexample to C7 as stated: a record whose Decision cell holds a
single space — a non-empty string — strips to empty, so
`get_unprocessed_records` still returns it. -/
theorem unprocessed_nonempty_decision_cex :
    get_unprocessed_records [[("Timestamp", "t"), ("Company Name", "A"), ("Decision", " ")]]
      = [(2, [("Timestamp", "t"), ("Company Name", "A"), ("Decision", " ")])]
    ∧ getField [("Timestamp", "t"), ("Company Name", "A"), ("Decision", " ")] "Decision" = " "
    ∧ ¬ (" " : String) = "" := by
  decide

/-- C7 (amended): every record returned by `get_unprocessed_records` has
both its Research Notes and its Decision field empty after stripping
whitespace; in particular no returned record has a Decision with any
non-whitespace content. -/
theorem unprocessed_fields_blank (rows : List Record) (p : Nat × Record)
    (h : p ∈ get_unprocessed_records rows) :
    stripS (getField p.2 "Research Notes") = "" ∧ stripS (getField p.2 "Decision") = "" := by
  have hu := unprocFrom_is_unprocessed 0 (get_all_records rows) p h
  simp only [is_unprocessed, Bool.and_eq_true, beq_iff_eq] at hu
  exact hu

/-- Witness for the amended C7 on a one-record sheet. -/
theorem unprocessed_fields_blank_witness :
    ((2 : Nat), ([("Timestamp", "t"), ("Company Name", "A")] : Record))
        ∈ get_unprocessed_records [[("Timestamp", "t"), ("Company Name", "A")]]
    ∧ stripS (getField [("Timestamp", "t"), ("Company Name", "A")] "Decision") = "" :=
  ⟨by decide,
    (unprocessed_fields_blank [[("Timestamp", "t"), ("Company Name", "A")]]
      (2, [("Timestamp", "t"), ("Company Name", "A")]) (by decide)).2⟩

/-- Columns already in the header stay in it as further columns are added. -/
theorem add_columns_mem_mono (cols : List String) :
    ∀ (hs : List String) (c : String), c ∈ hs → c ∈ add_columns_if_missing hs cols := by
  induction cols with
  | nil => intro hs c hc; exact hc
  | cons col cols ih =>
    intro hs c hc
    show c ∈ add_columns_if_missing (if col ∈ hs then hs else hs ++ [col]) cols
    by_cases h : col ∈ hs
    · rw [if_pos h]; exact ih hs c hc
    · rw [if_neg h]; exact ih (hs ++ [col]) c (List.mem_append_left [col] hc)

/-- Every requested column is present in the resulting header. -/
theorem add_columns_mem_of_mem_cols (cols : List String) :
    ∀ (hs : List String) (c : String), c ∈ cols → c ∈ add_columns_if_missing hs cols := by
  induction cols with
  | nil => intro hs c hc; cases hc
  | cons col cols ih =>
    intro hs c hc
    show c ∈ add_columns_if_missing (if col ∈ hs then hs else hs ++ [col]) cols
    rcases List.mem_cons.mp hc with rfl | hc'
    · apply add_columns_mem_mono
      by_cases h : c ∈ hs
      · rw [if_pos h]; exact h
      · rw [if_neg h]; exact List.mem_append_right hs (List.mem_singleton.mpr rfl)
    · exact ih _ c hc'

/-- Adding columns that are all already present leaves the header
unchanged. -/
theorem add_columns_noop (cols : List String) :
    ∀ hs : List String, (∀ c ∈ cols, c ∈ hs) → add_columns_if_missing hs cols = hs := by
  induction cols with
  | nil => intro hs _; rfl
  | cons col cols ih =>
    intro hs h
    have hcol : col ∈ hs := h col (List.mem_cons_self col cols)
    show add_columns_if_missing (if col ∈ hs then hs else hs ++ [col]) cols = hs
    rw [if_pos hcol]
    exact ih hs (fun c hc => h c (List.mem_cons_of_mem col hc))

/-- A column already present is never appended again: its number of
occurrences in the header is unchanged. -/
theorem add_columns_count (cols : List String) :
    ∀ (hs : List String) (c : String), c ∈ hs →
      (add_columns_if_missing hs cols).count c = hs.count c := by
  induction cols with
  | nil => intro hs c _; rfl
  | cons col cols ih =>
    intro hs c hc
    show (add_columns_if_missing (if col ∈ hs then hs else hs ++ [col]) cols).count c
      = hs.count c
    by_cases h : col ∈ hs
    · rw [if_pos h]; exact ih hs c hc
    · rw [if_neg h]
      have hne : c ≠ col := fun heq => h (heq ▸ hc)
      rw [ih (hs ++ [col]) c (List.mem_append_left [col] hc)]
      simp [List.count_append, List.count_singleton', hne]

/-- C9: `add_columns_if_missing` is idempotent — applying it twice with the
same column names yields the same header row as applying it once — and a
column already present is never appended a second time (its occurrence
count in the header is unchanged). -/
theorem add_columns_idempotent (hs cols : List String) (c : String) (hc : c ∈ hs) :
    add_columns_if_missing (add_columns_if_missing hs cols) cols
        = add_columns_if_missing hs cols
    ∧ (add_columns_if_missing hs cols).count c = hs.count c :=
  ⟨add_columns_noop cols (add_columns_if_missing hs cols)
      (fun x hx => add_columns_mem_of_mem_cols cols hs x hx),
    add_columns_count cols hs c hc⟩

/-- Witness for C9 on a header already containing Decision. -/
theorem add_columns_idempotent_witness :
    ("Decision" : String) ∈ ["Timestamp", "Company Name", "Decision"]
    ∧ add_columns_if_missing
        (add_columns_if_missing ["Timestamp", "Company Name", "Decision"]
          ["Research Notes", "Decision"]) ["Research Notes", "Decision"]
      = add_columns_if_missing ["Timestamp", "Company Name", "Decision"]
          ["Research Notes", "Decision"]
    ∧ (add_columns_if_missing ["Timestamp", "Company Name", "Decision"]
          ["Research Notes", "Decision"]).count "Decision"
      = (["Timestamp", "Company Name", "Decision"] : List String).count "Decision" :=
  ⟨by decide,
    (add_columns_idempotent ["Timestamp", "Company Name", "Decision"]
      ["Research Notes", "Decision"] "Decision" (by decide)).1,
    (add_columns_idempotent ["Timestamp", "Company Name", "Decision"]
      ["Research Notes", "Decision"] "Decision" (by decide)).2⟩

/-- C10: a cap of `0` is falsy in Python, so the slice is skipped — the run
with `max_records = 0` behaves exactly like a run with no cap and every
unprocessed record is processed. -/
theorem max_records_zero_processes_all (rows : List Record)
    (research : Record → Except String String) :
    applyCap (some 0) (get_unprocessed_records rows) = get_unprocessed_records rows
    ∧ process_unprocessed_records rows research (some 0)
      = process_unprocessed_records rows research none := by
  constructor
  · rfl
  · simp [process_unprocessed_records, applyCap]
